import Mathlib


/-!
# WinterStream backend — verification of the session/orchestration layer

A shallow embedding of the core logic of the WinterStream backend
(`backend/main.py`, `backend/services/youtube_service.py`,
`backend/services/agent_service.py`) together with proofs about it.

Conventions used throughout:
* Python `float` times are modelled as `ℚ` (the code only adds, subtracts,
  compares and floors them, so rationals carry the algorithm faithfully);
* per-class in-memory stores (`dict`) are modelled as functions into `Option`;
* a fallible external call is a parameter returning `Except Unit _`;
* `try/except` blocks that convert any failure into a plain value are
  modelled by total functions returning that value on the failure branch.
-/

/-- One transcript segment, as in `models.TranscriptEntry`:
`start` and `duration` in seconds, plus the caption text. -/
structure TranscriptEntry where
  start : ℚ
  duration : ℚ
  text : String
deriving DecidableEq

/-- The per-video transcript store `YouTubeService._transcripts`:
a mapping from video id to the stored list of segments
(`none` models a video id that was never stored). -/
def TranscriptStore := String → Option (List TranscriptEntry)

/-- Embeds `YouTubeService.get_transcript_window`
(`youtube_service.py`, lines 170-192): looks the video up with default `[]`,
returns `[]` for an empty transcript, and otherwise filters with the source's
boolean window condition, where `start_time` is `max 0 (current_time -
window_seconds)` and `end_time` is `current_time`. -/
def get_transcript_window (store : TranscriptStore) (video_id : String)
    (current_time window_seconds : ℚ) : List TranscriptEntry :=
  let transcript := (store video_id).getD []
  if transcript.isEmpty then []
  else
    let start_time := max 0 (current_time - window_seconds)
    let end_time := current_time
    transcript.filter (fun entry =>
      decide ((start_time ≤ entry.start ∧ entry.start ≤ end_time) ∨
              (entry.start ≤ start_time ∧ start_time ≤ entry.start + entry.duration)))

/-- The window-selection rule exactly as the specification words it:
`max(0, t - w) ≤ s.start ≤ t`, OR `s.start ≤ t - w ≤ s.start + s.duration`
(the second disjunct written with the unclamped `t - w`). -/
def specWindowPred (t w : ℚ) (s : TranscriptEntry) : Prop :=
  (max 0 (t - w) ≤ s.start ∧ s.start ≤ t) ∨
  (s.start ≤ t - w ∧ t - w ≤ s.start + s.duration)

instance (t w : ℚ) (s : TranscriptEntry) : Decidable (specWindowPred t w s) := by
  unfold specWindowPred; infer_instance

/-- The literal three-segment fixture from the specification:
segments `{0,10,"a"}, {40,5,"b"}, {44,10,"c"}` stored for every video id. -/
def exampleStore : TranscriptStore := fun _ =>
  some [⟨0, 10, "a"⟩, ⟨40, 5, "b"⟩, ⟨44, 10, "c"⟩]

/-! ## Session metadata and context text (`youtube_service.py`) -/

/-- Video metadata as built by `YouTubeService.get_video_metadata`
(`youtube_service.py`, lines 31-76): a dict with exactly the keys
`video_id`, `title`, `author`, `description`, `thumbnail`, all strings.
A missing dict value is modelled by the empty string, matching the
code's falsiness tests `metadata.get("title")` etc. -/
structure VideoMetadata where
  video_id : String
  title : String
  author : String
  description : String
  thumbnail : String
deriving DecidableEq

/-- The per-video metadata cache `YouTubeService._video_metadata`
(`none` models a video id that was never stored; the code's
`_video_metadata.get(video_id, {})` followed by `if metadata:` treats
exactly that case as absent, since every stored dict is non-empty). -/
def MetadataStore := String → Option VideoMetadata

/-- The `[mm:ss] text` line built for one entry in
`YouTubeService.get_context_text` (lines 93-97):
`minutes = int(entry.start // 60)`, `seconds = int(entry.start % 60)`,
then `f"[{minutes}:{seconds:02d}] {entry.text}"`.  Python `//` is floor
division and `%` returns a value in `[0, 60)`, so `seconds` is the floor
of `start - 60 * minutes`; `:02d` zero-pads to two digits. -/
def format_timestamp_line (entry : TranscriptEntry) : String :=
  let minutes : ℤ := (entry.start / 60).floor
  let seconds : ℤ := (entry.start - 60 * (minutes : ℚ)).floor
  let secStr := if seconds < 10 then "0" ++ toString seconds else toString seconds
  "[" ++ toString minutes ++ ":" ++ secStr ++ "] " ++ entry.text

/-- The `context_parts` list built in the metadata branch of
`YouTubeService.get_context_text` (lines 103-109): one labelled line per
field, included only when the field is truthy (non-empty). -/
def metadata_context_parts (metadata : VideoMetadata) : List String :=
  (if metadata.title ≠ "" then ["Video Title: " ++ metadata.title] else []) ++
  (if metadata.author ≠ "" then ["Channel: " ++ metadata.author] else []) ++
  (if metadata.description ≠ "" then ["Description: " ++ metadata.description] else [])

/-- Embeds `YouTubeService.get_context_text` (`youtube_service.py`,
lines 83-114): first the 30-second transcript window; if non-empty, the
formatted transcript; else the metadata description when any labelled
part exists; else the sentinel string. -/
def get_context_text (tr : TranscriptStore) (ms : MetadataStore)
    (video_id : String) (current_time : ℚ) : String :=
  let transcript_entries := get_transcript_window tr video_id current_time 30
  if ¬ transcript_entries.isEmpty then
    "Recent commentary transcript:\n" ++
      String.intercalate "\n" (transcript_entries.map format_timestamp_line)
  else
    match ms video_id with
    | some metadata =>
        let context_parts := metadata_context_parts metadata
        if ¬ context_parts.isEmpty then
          "Video information (no transcript available):\n" ++
            String.intercalate "\n" context_parts
        else "No transcript or video information available."
    | none => "No transcript or video information available."

/-- An empty transcript store (no video ever stored). -/
def emptyTranscripts : TranscriptStore := fun _ => none

/-- A metadata fixture with title and author present, description absent. -/
def exampleMetadataStore : MetadataStore := fun _ =>
  some ⟨"v2", "Ski Jumping Final", "Olympic Channel", "", ""⟩

/-! ## Card pushing and deduplication (`agent_service.py`) -/

/-- A pushed commentary card, as `models.CommentaryItemPush` is populated by
`push_info_card` (`agent_service.py`, lines 300-311): `type`, `title`,
`content`, and an optional highlight `{value, label, image, stats}`. -/
structure CommentaryCard where
  type : String
  title : String
  content : String
  highlight : Option (String × String × String × List String)
deriving DecidableEq

/-- The per-request card state: the dedup tracker `_pushed_cards_tracker`
(a list of joined key strings, reset at the start of each request by
`_reset_card_tracker`) together with the sequence of cards handed to
`manager.broadcast` so far during the request. -/
structure CardRequestState where
  tracker : List String
  broadcasts : List CommentaryCard
deriving DecidableEq

/-- The fresh state installed by `_reset_card_tracker` at request start. -/
def emptyCardState : CardRequestState := ⟨[], []⟩

/-- The admissible card types: `models.CommentaryItemPush.type` is
`Literal['market_shift', 'historical', 'analysis', 'narration',
'player_profile']` (`models.py`, line 58); pydantic raises a validation
error when the card is constructed with any other string. -/
def valid_card_types : List String :=
  ["market_shift", "historical", "analysis", "narration", "player_profile"]

/-- Embeds the `push_info_card` tool (`agent_service.py`, lines 240-328):
computes the dedup key `f"{title}:{card_type}"`; if the key is already in
the tracker, returns the duplicate observation without touching the state.
Otherwise it appends the key to the tracker (line 294) and then constructs
the `CommentaryItemPush` (line 301), which validates `card_type` against
the `Literal` set: when valid, the card (highlight present only when
`source_url or image_url or stats` is truthy, its label "Source" only when
`source_url` is truthy) is broadcast and the confirmation returned; when
invalid, the constructor raises inside the `try`, so nothing is broadcast —
but the key stays tracked — and the `except` arm returns the failure
message.  The validation error is the only reachable exception there:
`ConnectionManager.broadcast` itself never raises (see `broadcast`). -/
def push_info_card (s : CardRequestState) (title content card_type source_url image_url : String)
    (stats : Option (List String)) : CardRequestState × String :=
  let card_key := title ++ ":" ++ card_type
  if s.tracker.contains card_key then
    (s, "⚠️ Card '" ++ title ++ "' was already pushed. Skipped duplicate.")
  else
    let s1 : CardRequestState := { s with tracker := s.tracker ++ [card_key] }
    if card_type ∈ valid_card_types then
      let card : CommentaryCard :=
        { type := card_type
          title := title
          content := content
          highlight :=
            if source_url ≠ "" ∨ image_url ≠ "" ∨ stats.getD [] ≠ [] then
              some (source_url, (if source_url ≠ "" then "Source" else ""), image_url, stats.getD [])
            else none }
      ({ s1 with broadcasts := s.broadcasts ++ [card] }, "✅ Card pushed: " ++ title)
    else
      (s1, "Card push failed. Continuing with answer...")

/-- The arguments of one `push_info_card` call. -/
structure PushCall where
  title : String
  content : String
  card_type : String
  source_url : String
  image_url : String
  stats : Option (List String)

/-- `push_info_card` applied to one bundled call. -/
def push_call (s : CardRequestState) (c : PushCall) : CardRequestState × String :=
  push_info_card s c.title c.content c.card_type c.source_url c.image_url c.stats

/-- The dedup key `f"{title}:{card_type}"` of one call. -/
def push_key (c : PushCall) : String := c.title ++ ":" ++ c.card_type

/-- One question-answering request as seen by the card tool: the calls are
performed in order against the state that `_reset_card_tracker` installed
at request start. -/
def run_request : CardRequestState → List PushCall → CardRequestState
  | s, [] => s
  | s, c :: rest => run_request (push_call s c).1 rest

/-! ## The WebSocket connection registry (`main.py`) -/

/-- Outcome of one `ConnectionManager.broadcast` call
(`main.py`, lines 77-86): the handles whose `send_json` succeeded, the
connection set after pruning, and the Python function's return value.
Handles are opaque; we use `Nat` ids.  A send failure (the `except` arm of
the per-connection `try`) is modelled by `sendOk` returning `false`. -/
structure BroadcastResult where
  delivered : List Nat
  remaining : List Nat
  retval : Option Nat
deriving DecidableEq

/-- The `for connection in self.active_connections` loop of `broadcast`:
walks every registered handle in order, collecting the successes (message
delivered) and the failures (appended to `disconnected`).  A failure is
caught per connection and never stops the walk. -/
def broadcast_attempt : List Nat → (Nat → Bool) → List Nat × List Nat
  | [], _ => ([], [])
  | c :: rest, sendOk =>
    let r := broadcast_attempt rest sendOk
    if sendOk c then (c :: r.1, r.2) else (r.1, c :: r.2)

/-- The pruning loop `for conn in disconnected: active_connections.discard(conn)`. -/
def discard_all (conns disc : List Nat) : List Nat :=
  disc.foldl (fun s c => s.erase c) conns

/-- Embeds `ConnectionManager.broadcast` (`main.py`, lines 77-86): attempt
delivery to every registered handle, prune the failed ones, and return —
the Python function has no `return` statement, so its value is `None`,
modelled as `retval := none`.  The embedding is a total function: every
per-connection failure is caught inside the loop, so `broadcast` never
raises to its caller. -/
def ConnectionManager.broadcast (conns : List Nat) (sendOk : Nat → Bool) : BroadcastResult :=
  let r := broadcast_attempt conns sendOk
  { delivered := r.1, remaining := discard_all conns r.2, retval := none }

/-! ## The question-answering orchestrator (`agent_service.py`) -/

/-- The per-video proactive research context stored by
`_store_video_context` (`agent_service.py`, lines 1035-1039):
`{sport, profiles_cached, search_query}`. -/
structure VideoContext where
  sport : String
  profiles_cached : Nat
  search_query : String
deriving DecidableEq

/-- One insight as stored by `search_exa` into the Exa result cache
(`agent_service.py`, lines 194-201): only the url fields are modelled,
since only they flow into the orchestrator's outputs — the source extraction
in `answer_question` (lines 949-954) reads `r["source_url"]` if the key is
present, else `r["url"]` if that key is present. -/
structure ExaResult where
  source_url : Option String
  url : Option String
deriving DecidableEq

/-- The input assembled for the agent executor in `answer_question`
(lines 891-896): the question, the video title, the playback time, the
`has_screenshot` marker string, plus the cached per-video research context
that is spliced into the system prompt (lines 731-735). -/
structure AgentInput where
  question : String
  video_title : String
  current_time : ℚ
  has_screenshot : String
  cached_context : Option VideoContext

/-- What one `agent_executor.ainvoke` run yields, as read back by
`answer_question` (lines 914-944): the optional `output` text
(`result.get("output", ...)`), the tool names of the intermediate steps,
and the contents of the Exa result cache after the run (the cache is
cleared at request start, so it holds exactly what this run's searches
stored). -/
structure AgentRunResult where
  output : Option String
  steps : List String
  exa_cache : List ExaResult

/-- The collaborators of `AgentService.answer_question`, each at its
interface boundary: the stored-metadata lookup
(`YouTubeService.get_stored_metadata` plus the `if not metadata:` falsiness
test), the synchronous metadata fetch attempted when the store is empty
(`YouTubeService.get_video_metadata`, which can fail), the per-video
research context cache (`_get_video_context`), whether
`_setup_context_tools` raises (the `except` arm at lines 718-725), and the
agent executor run (`ainvoke`, which can raise). -/
structure AgentEnv where
  stored_metadata : String → Option VideoMetadata
  fetch_metadata : String → Except Unit VideoMetadata
  video_context : String → Option VideoContext
  setup_tools_fails : Bool
  run_agent : AgentInput → Except Unit AgentRunResult

/-- The result dict of `answer_question`:
`{answer, sources, tools_used, exa_results}`. -/
structure AnswerResult where
  answer : String
  sources : List String
  tools_used : List String
  exa_results : List ExaResult
deriving DecidableEq

/-- The tail of `answer_question` once metadata is in hand (lines 714-975):
tool setup (failure returns the tools apology), the `ainvoke` call inside
`try` (failure returns the generic apology), and on success the extraction
of answer (`result.get("output", ...)` with its default), deduplicated tool
names (`list(set(tools_used))`; Python's set order is unspecified, we fix
first-occurrence order), sources from the Exa cache, and the cache itself. -/
def answer_question_go (env : AgentEnv) (question video_id : String)
    (playback_time : ℚ) (screenshot_base64 : Option String)
    (metadata : VideoMetadata) : AnswerResult :=
  if env.setup_tools_fails then
    { answer := "I encountered an issue setting up my tools. Please try again.",
      sources := [], tools_used := [], exa_results := [] }
  else
    let agent_input : AgentInput :=
      { question := question
        video_title := metadata.title
        current_time := playback_time
        has_screenshot :=
          if screenshot_base64.isSome then
            "Yes - use analyze_current_frame to see what's happening NOW"
          else "No"
        cached_context := env.video_context video_id }
    match env.run_agent agent_input with
    | .error _ =>
      { answer := "I'm having trouble answering right now. Please try again in a moment.",
        sources := [], tools_used := [], exa_results := [] }
    | .ok result =>
      { answer := result.output.getD "I couldn't generate an answer."
        sources := result.exa_cache.filterMap (fun r =>
          match r.source_url with
          | some u => some u
          | none => r.url)
        tools_used := result.steps.eraseDups
        exa_results := result.exa_cache }

/-- Embeds `AgentService.answer_question` (`agent_service.py`,
lines 626-975).  The screenshot debug block (lines 654-673) only logs and
is not modelled.  Control flow: empty `video_id` returns the clarifying
request immediately; absent metadata triggers one synchronous fetch whose
failure returns the terminal metadata apology; otherwise the run proceeds
in `answer_question_go`. -/
def answer_question (env : AgentEnv) (question video_id : String)
    (playback_time : ℚ) (screenshot_base64 : Option String) : AnswerResult :=
  if video_id = "" then
    { answer := "I need a video to be loaded first. Please load a video and try again.",
      sources := [], tools_used := [], exa_results := [] }
  else
    match env.stored_metadata video_id with
    | some metadata =>
      answer_question_go env question video_id playback_time screenshot_base64 metadata
    | none =>
      match env.fetch_metadata video_id with
      | .ok metadata =>
        answer_question_go env question video_id playback_time screenshot_base64 metadata
      | .error _ =>
        { answer := "I'm having trouble accessing the video information. Please try reloading the video.",
          sources := [], tools_used := [], exa_results := [] }

/-- The fixed list of stalling phrases.  The only place such phrases exist
in the source is the FORBIDDEN PHRASES block of the system prompt handed to
the reasoning engine (`agent_service.py`, lines 754-760) — instructions to
the engine, not data the orchestrator inspects. -/
def forbidden_phrases : List String :=
  ["I'm going to pull up", "I'll pull up", "Let me get", "I'll try to get", "I'm pulling up"]

/-- A concrete environment for the stall scenario: metadata is stored, tool
setup succeeds, and the reasoning loop ends with a candidate final answer
that opens with the stalling phrase "I'll pull up", having made no tool
call (in particular no search) during the request. -/
def stall_env : AgentEnv :=
  { stored_metadata := fun _ =>
      some ⟨"vid123", "Skeleton - Men Heats 1 and 2 | Sochi 2014", "Olympics", "", ""⟩
    fetch_metadata := fun _ => .error ()
    video_context := fun _ => none
    setup_tools_fails := false
    run_agent := fun _ => .ok
      { output := some ("I'll pull up" ++ " information about that athlete.")
        steps := []
        exa_cache := [] } }

/-! ## The bounded tool-calling reasoning loop -/

/-- One recorded tool round-trip of the loop: tool name, input, and the
observation the tool returned. -/
structure AgentToolStep where
  name : String
  input : String
  output : String

/-- One decision of the reasoning engine: either request a tool call or
emit a final answer. -/
inductive EngineStep where
  | toolCall (name input : String)
  | finish (answer : String)

/-- The reasoning engine at its interface boundary: given the scratchpad of
steps so far it either requests a tool or finishes; `forced_answer` is its
best-current-answer generation used when the iteration bound is hit. -/
structure ReasoningEngine where
  plan : List AgentToolStep → EngineStep
  forced_answer : List AgentToolStep → String

/-- What one loop run yields: the final output text and the recorded steps. -/
structure LoopResult where
  output : String
  steps : List AgentToolStep

/-- Modelled from the spec: the bounded tool-calling loop itself lives in
the external LangChain `AgentExecutor`, not under `src/` — the repository
only configures it (`agent_service.py`, lines 881-888) with
`max_iterations` 10 and `early_stopping_method` "generate".  Per the spec:
each iteration the engine either requests a tool call (executed, recorded,
loop continues) or emits a final answer; when the bound is exhausted the
engine is forced to generate its best current answer from the accumulated
observations instead of failing. -/
def agent_loop (engine : ReasoningEngine) (tools : String → String → String) :
    Nat → List AgentToolStep → LoopResult
  | 0, steps => { output := engine.forced_answer steps, steps := steps }
  | fuel + 1, steps =>
    match engine.plan steps with
    | .finish answer => { output := answer, steps := steps }
    | .toolCall name input =>
      agent_loop engine tools fuel
        (steps ++ [{ name := name, input := input, output := tools name input }])

/-- The configured executor run: at most 10 tool round-trips from an empty
scratchpad (`max_iterations` 10 at `agent_service.py`, line 885). -/
def agent_executor_ainvoke (engine : ReasoningEngine)
    (tools : String → String → String) : LoopResult :=
  agent_loop engine tools 10 []

/-- The orchestrator environment in which the reasoning loop is the
spec-modelled bounded executor: metadata is stored, tool setup succeeds,
and `ainvoke` returns the loop's output and step names (no search was
modelled, so the Exa cache stays empty). -/
def loop_env (engine : ReasoningEngine) (tools : String → String → String)
    (m : VideoMetadata) : AgentEnv :=
  { stored_metadata := fun _ => some m
    fetch_metadata := fun _ => .error ()
    video_context := fun _ => none
    setup_tools_fails := false
    run_agent := fun _ => .ok
      { output := some (agent_executor_ainvoke engine tools).output
        steps := (agent_executor_ainvoke engine tools).steps.map (fun st => st.name)
        exa_cache := [] } }

/-- A reasoning engine stub that always requests another tool call, with a
non-empty forced generation — the spec's loop-exhaustion scenario. -/
def exhausting_engine : ReasoningEngine :=
  { plan := fun _ => EngineStep.toolCall "search_exa" "athlete profile"
    forced_answer := fun _ => "Based on what I found so far, here is my best answer." }

/-! ## Background live monitoring (`agent_service.py`, module level) -/

/-- One live-monitoring task as created by `asyncio.create_task(
agent_service.start_live_monitoring(video_id))`: an identity (`tid`) and
the video it monitors. -/
structure LiveTask where
  tid : Nat
  videoId : String
deriving DecidableEq

/-- The module-level monitoring state around `start_live_agent` /
`stop_live_agent` (`agent_service.py`, lines 1119-1143): the single global
slot `_live_monitoring_task` (there is one slot for the whole process, not
one per video), the ids of tasks that have run to completion
(`task.done()` by completion), the ids of tasks that have been cancelled
(`task.cancel()`; a cancelled task is also `done()`), and a counter
supplying fresh task ids. -/
structure LiveAgentState where
  current : Option LiveTask
  doneTids : List Nat
  cancelledTids : List Nat
  nextTid : Nat

/-- `task.done()` for this model: completed or cancelled. -/
def task_done (s : LiveAgentState) (t : LiveTask) : Bool :=
  s.doneTids.contains t.tid || s.cancelledTids.contains t.tid

/-- A task is an active monitor instance: it occupies the global slot and
is neither completed nor cancelled. -/
def isActiveTask (s : LiveAgentState) (t : LiveTask) : Prop :=
  s.current = some t ∧ t.tid ∉ s.doneTids ∧ t.tid ∉ s.cancelledTids

/-- Embeds `start_live_agent` (`agent_service.py`, lines 1123-1135):
`if _live_monitoring_task and not _live_monitoring_task.done():
_live_monitoring_task.cancel()`, then a new monitoring task is created and
installed in the global slot.  Returns the new state and the new task. -/
def start_live_agent (s : LiveAgentState) (video_id : String) :
    LiveAgentState × LiveTask :=
  let cancelled :=
    match s.current with
    | some t => if task_done s t then s.cancelledTids else s.cancelledTids ++ [t.tid]
    | none => s.cancelledTids
  let new_task : LiveTask := ⟨s.nextTid, video_id⟩
  ({ current := some new_task
     doneTids := s.doneTids
     cancelledTids := cancelled
     nextTid := s.nextTid + 1 }, new_task)

/-! ## The background research task (`main.py`) -/

/-- The attribute names available on the `agent_service` instance of
`AgentService` (`agent_service.py`): the instance attributes set in
`__init__` and every method defined on the class.  Python attribute lookup
on the instance succeeds exactly for these names (plus `object` builtins,
none of which is relevant here); any other name raises `AttributeError`. -/
def agent_service_attrs : List String :=
  ["llm", "tools", "agent_executor",
   "__init__", "_setup_llm", "_setup_tools", "_setup_context_tools", "_create_agent",
   "answer_question", "proactive_video_research", "start_live_monitoring"]

/-- What a `research_video_context_background` run leaves behind: the cards
broadcast during the run and the per-video research context stored (the
success path of the source would broadcast player/event cards; the `except`
arm only logs). -/
structure ResearchBackgroundOutcome where
  broadcasts : List CommentaryCard
  stored_context : Option VideoContext
deriving DecidableEq

/-- The outcome of the `except` arm of `research_video_context_background`
(`main.py`, lines 218-219): the exception is logged; nothing is broadcast
and nothing is stored. -/
def research_failed_outcome : ResearchBackgroundOutcome :=
  { broadcasts := [], stored_context := none }

/-- Embeds `research_video_context_background` (`main.py`, lines 149-219):
the first statement of its `try` block calls
`agent_service.research_video_context(...)`.  The call is modelled by
Python attribute lookup against `agent_service_attrs`: if the name
resolved, the (never reached) success path would produce some outcome
`onSuccess`; if not, the lookup raises `AttributeError` and control moves
to the `except` arm, which logs and returns having broadcast nothing and
stored nothing. -/
def research_video_context_background (onSuccess : ResearchBackgroundOutcome) :
    ResearchBackgroundOutcome :=
  if agent_service_attrs.contains "research_video_context" then onSuccess
  else research_failed_outcome

/-! ## Theorems -/

/-- helper: the code's window filter agrees with the spec's rule pointwise,
for nonnegative center time and nonnegative segment starts. -/
theorem windowPred_agrees (t w : ℚ) (s : TranscriptEntry)
    (ht : 0 ≤ t) (hs : 0 ≤ s.start) :
    ((max 0 (t - w) ≤ s.start ∧ s.start ≤ t) ∨
      (s.start ≤ max 0 (t - w) ∧ max 0 (t - w) ≤ s.start + s.duration)) ↔
    specWindowPred t w s := by
  unfold specWindowPred
  rcases le_or_lt 0 (t - w) with hw | hw
  · rw [max_eq_right hw]
  · rw [max_eq_left hw.le]
    constructor
    · rintro (⟨h1, h2⟩ | ⟨h1, h2⟩)
      · exact Or.inl ⟨hs, h2⟩
      · exact Or.inl ⟨hs, by linarith⟩
    · rintro (⟨h1, h2⟩ | ⟨h1, h2⟩)
      · exact Or.inl ⟨hs, h2⟩
      · exact absurd (lt_of_le_of_lt h1 hw) (not_lt.mpr hs)

/-- C3: for every stored video id, time `t ≥ 0` and window `w`, over segments
with nonnegative starts, `get_transcript_window` returns exactly the segments
selected by the spec's rule `max(0, t-w) ≤ s.start ≤ t ∨ s.start ≤ t-w ≤
s.start + s.duration`; an unknown video id yields the empty list, never an
error (the embedding is a total function); and on the spec's concrete fixture
with `t = 45`, `w = 30` it returns exactly the second and third segments. -/
theorem transcript_window_matches_spec :
    (∀ (store : TranscriptStore) (vid : String) (t w : ℚ),
        0 ≤ t → (∀ s ∈ (store vid).getD [], 0 ≤ s.start) →
        get_transcript_window store vid t w =
          ((store vid).getD []).filter (fun s => decide (specWindowPred t w s))) ∧
    (∀ (store : TranscriptStore) (vid : String) (t w : ℚ),
        store vid = none → get_transcript_window store vid t w = []) ∧
    get_transcript_window exampleStore "vex" 45 30 = [⟨40, 5, "b"⟩, ⟨44, 10, "c"⟩] := by
  refine ⟨?_, ?_, by norm_num [get_transcript_window, exampleStore, List.filter]⟩
  · intro store vid t w ht hstarts
    unfold get_transcript_window
    by_cases hemp : ((store vid).getD []).isEmpty
    · simp only [hemp, if_true]
      rw [List.isEmpty_iff] at hemp
      rw [hemp, List.filter_nil]
    · simp only [hemp, if_false]
      apply List.filter_congr
      intro s hs
      have := windowPred_agrees t w s ht (hstarts s hs)
      simp only [decide_eq_decide]
      exact this
  · intro store vid t w h
    unfold get_transcript_window
    simp [h]

/-- Witness for C3: the general window theorem applied to the concrete fixture
store at `t = 45`, `w = 30`, with both hypotheses discharged by computation. -/
theorem transcript_window_matches_spec_witness :
    get_transcript_window exampleStore "vex" 45 30 =
      ((exampleStore "vex").getD []).filter (fun s => decide (specWindowPred 45 30 s)) :=
  transcript_window_matches_spec.1 exampleStore "vex" 45 30 (by decide)
    (by intro s hs; simp only [exampleStore, Option.getD_some, List.mem_cons,
          List.not_mem_nil, or_false] at hs
        rcases hs with rfl | rfl | rfl <;> decide)

/-- C4: `get_context_text` returns the formatted `[mm:ss] text` transcript
window when the window is non-empty; with an empty window and stored
metadata carrying at least one of title/author/description it returns the
metadata description, each field contributing a line only if present; and
with an empty window and no stored metadata it returns the explicit
"no information" sentinel string. -/
theorem context_text_three_branches :
    ∀ (tr : TranscriptStore) (ms : MetadataStore) (vid : String) (t : ℚ),
      (get_transcript_window tr vid t 30 ≠ [] →
        get_context_text tr ms vid t =
          "Recent commentary transcript:\n" ++
            String.intercalate "\n"
              ((get_transcript_window tr vid t 30).map format_timestamp_line)) ∧
      (∀ m, get_transcript_window tr vid t 30 = [] → ms vid = some m →
        metadata_context_parts m ≠ [] →
        get_context_text tr ms vid t =
          "Video information (no transcript available):\n" ++
            String.intercalate "\n" (metadata_context_parts m)) ∧
      (get_transcript_window tr vid t 30 = [] → ms vid = none →
        get_context_text tr ms vid t = "No transcript or video information available.") := by
  intro tr ms vid t
  refine ⟨?_, ?_, ?_⟩
  · intro hne
    unfold get_context_text
    cases h : get_transcript_window tr vid t 30 with
    | nil => exact absurd h hne
    | cons a l => simp [h]
  · intro m hemp hms hparts
    unfold get_context_text
    cases hp : metadata_context_parts m with
    | nil => exact absurd hp hparts
    | cons a l => simp [hemp, hms, hp]
  · intro hemp hms
    unfold get_context_text
    simp [hemp, hms]

/-- Witness for C4: all three branches on literal fixtures — the transcript
fixture at `t = 45`, a metadata-only store, and a completely empty session. -/
theorem context_text_three_branches_witness :
    (get_context_text exampleStore (fun _ => none) "vex" 45 =
      "Recent commentary transcript:\n" ++
        String.intercalate "\n"
          ((get_transcript_window exampleStore "vex" 45 30).map format_timestamp_line)) ∧
    (get_context_text emptyTranscripts exampleMetadataStore "v2" 0 =
      "Video information (no transcript available):\n" ++
        String.intercalate "\n"
          (metadata_context_parts ⟨"v2", "Ski Jumping Final", "Olympic Channel", "", ""⟩)) ∧
    (get_context_text emptyTranscripts (fun _ => none) "v3" 0 =
      "No transcript or video information available.") := by
  refine ⟨?_, ?_, ?_⟩
  · exact (context_text_three_branches exampleStore (fun _ => none) "vex" 45).1
      (by
        have hval : get_transcript_window exampleStore "vex" 45 30 =
            [⟨40, 5, "b"⟩, ⟨44, 10, "c"⟩] := by
          norm_num [get_transcript_window, exampleStore, List.filter]
        rw [hval]; decide)
  · exact (context_text_three_branches emptyTranscripts exampleMetadataStore "v2" 0).2.1
      ⟨"v2", "Ski Jumping Final", "Olympic Channel", "", ""⟩
      (by simp [get_transcript_window, emptyTranscripts]) rfl (by decide)
  · exact (context_text_three_branches emptyTranscripts (fun _ => none) "v3" 0).2.2
      (by simp [get_transcript_window, emptyTranscripts]) rfl

theorem append_cons_eq_of_not_mem (c : Char) :
    ∀ (a1 b1 a2 b2 : List Char), c ∉ a1 → c ∉ a2 →
      a1 ++ c :: b1 = a2 ++ c :: b2 → a1 = a2 ∧ b1 = b2 := by
  intro a1
  induction a1 with
  | nil =>
    intro b1 a2 b2 h1 h2 heq
    cases a2 with
    | nil =>
      simp only [List.nil_append] at heq
      exact ⟨rfl, (List.cons_eq_cons.mp heq).2⟩
    | cons x t =>
      simp only [List.nil_append, List.cons_append] at heq
      obtain ⟨hcx, -⟩ := List.cons_eq_cons.mp heq
      exact absurd (by rw [hcx]; exact List.mem_cons_self x t) h2
  | cons y t ih =>
    intro b1 a2 b2 h1 h2 heq
    cases a2 with
    | nil =>
      simp only [List.cons_append, List.nil_append] at heq
      obtain ⟨hyc, -⟩ := List.cons_eq_cons.mp heq
      exact absurd (by rw [← hyc]; exact List.mem_cons_self y t) h1
    | cons z t2 =>
      simp only [List.cons_append] at heq
      obtain ⟨hyz, htail⟩ := List.cons_eq_cons.mp heq
      have h1t : c ∉ t := fun hm => h1 (List.mem_cons_of_mem y hm)
      have h2t : c ∉ t2 := fun hm => h2 (List.mem_cons_of_mem z hm)
      obtain ⟨he1, he2⟩ := ih b1 t2 b2 h1t h2t htail
      exact ⟨by rw [hyz, he1], he2⟩

theorem joined_key_inj (t1 ty1 t2 ty2 : String)
    (h1 : (':' : Char) ∉ ty1.data) (h2 : (':' : Char) ∉ ty2.data)
    (heq : t1 ++ ":" ++ ty1 = t2 ++ ":" ++ ty2) : t1 = t2 ∧ ty1 = ty2 := by
  have hd : t1.data ++ ':' :: ty1.data = t2.data ++ ':' :: ty2.data := by
    have h := congrArg String.data heq
    simpa [String.data_append] using h
  have hrev : ty1.data.reverse ++ ':' :: t1.data.reverse =
      ty2.data.reverse ++ ':' :: t2.data.reverse := by
    have h := congrArg List.reverse hd
    simpa [List.reverse_append, List.append_assoc] using h
  have h1r : (':' : Char) ∉ ty1.data.reverse := by simpa using h1
  have h2r : (':' : Char) ∉ ty2.data.reverse := by simpa using h2
  obtain ⟨hty, ht⟩ := append_cons_eq_of_not_mem ':' ty1.data.reverse t1.data.reverse
    ty2.data.reverse t2.data.reverse h1r h2r hrev
  exact ⟨String.ext (List.reverse_inj.mp ht), String.ext (List.reverse_inj.mp hty)⟩

theorem colon_free_of_valid : ∀ ty ∈ valid_card_types, (':' : Char) ∉ ty.data := by
  decide

theorem push_call_tracker_mem (s : CardRequestState) (c : PushCall) (k : String) :
    k ∈ (push_call s c).1.tracker ↔ k ∈ s.tracker ∨ k = push_key c := by
  by_cases hdup : (c.title ++ ":" ++ c.card_type) ∈ s.tracker
  · have h1 : (push_call s c).1 = s := by
      simp [push_call, push_info_card, hdup]
    rw [h1]
    unfold push_key
    constructor
    · exact fun h => Or.inl h
    · rintro (h | h)
      · exact h
      · rw [h]; exact hdup
  · by_cases hv : c.card_type ∈ valid_card_types
    · have h1 : (push_call s c).1.tracker = s.tracker ++ [c.title ++ ":" ++ c.card_type] := by
        simp [push_call, push_info_card, hdup, hv]
      rw [h1]
      unfold push_key
      simp [List.mem_append, List.mem_singleton]
    · have h1 : (push_call s c).1.tracker = s.tracker ++ [c.title ++ ":" ++ c.card_type] := by
        simp [push_call, push_info_card, hdup, hv]
      rw [h1]
      unfold push_key
      simp [List.mem_append, List.mem_singleton]

theorem push_call_fresh_valid (s : CardRequestState) (c : PushCall)
    (hdup : push_key c ∉ s.tracker) (hv : c.card_type ∈ valid_card_types) :
    (push_call s c).1.broadcasts.length = s.broadcasts.length + 1 ∧
    (push_call s c).2 = "✅ Card pushed: " ++ c.title := by
  unfold push_key at hdup
  unfold push_call push_info_card
  simp [hdup, hv]

theorem push_call_dup (s : CardRequestState) (c : PushCall)
    (hdup : push_key c ∈ s.tracker) :
    (push_call s c).1 = s ∧
    (push_call s c).2 = "⚠️ Card '" ++ c.title ++ "' was already pushed. Skipped duplicate." := by
  unfold push_key at hdup
  unfold push_call push_info_card
  simp [hdup]

theorem run_request_tracker_mem :
    ∀ (pre : List PushCall) (s : CardRequestState) (k : String),
      k ∈ (run_request s pre).tracker ↔ k ∈ s.tracker ∨ ∃ p ∈ pre, k = push_key p := by
  intro pre
  induction pre with
  | nil =>
    intro s k
    simp [run_request]
  | cons c rest ih =>
    intro s k
    show k ∈ (run_request (push_call s c).1 rest).tracker ↔ _
    rw [ih (push_call s c).1 k, push_call_tracker_mem]
    constructor
    · rintro ((hk | hk) | ⟨p, hp, hkey⟩)
      · exact Or.inl hk
      · exact Or.inr ⟨c, List.mem_cons_self c rest, hk⟩
      · exact Or.inr ⟨p, List.mem_cons_of_mem c hp, hkey⟩
    · rintro (hk | ⟨p, hp, hkey⟩)
      · exact Or.inl (Or.inl hk)
      · rcases List.mem_cons.mp hp with heq | hp2
        · subst heq
          exact Or.inl (Or.inr hkey)
        · exact Or.inr ⟨p, hp2, hkey⟩

/-- C5: within one question-answering request whose pushes use the data
model's card types, the dedup key `(title, type)` is pushed at most once:
on the five admissible `Literal` card types (all colon-free) the joined
tracker key `f"{title}:{card_type}"` uniquely determines the pair, so the
first `push_info_card` call of the request with a given `(title, type)`
pair performs exactly one broadcast and returns the confirmation, while
every later call with the same pair performs no broadcast, leaves the
request state untouched, and returns the duplicate observation. -/
theorem push_card_pair_dedup_per_request :
    ∀ (pre : List PushCall) (c : PushCall),
      (∀ p ∈ pre, p.card_type ∈ valid_card_types) →
      c.card_type ∈ valid_card_types →
      ((∀ p ∈ pre, ¬(p.title = c.title ∧ p.card_type = c.card_type)) →
        (push_call (run_request emptyCardState pre) c).1.broadcasts.length =
          (run_request emptyCardState pre).broadcasts.length + 1 ∧
        (push_call (run_request emptyCardState pre) c).2 = "✅ Card pushed: " ++ c.title) ∧
      ((∃ p ∈ pre, p.title = c.title ∧ p.card_type = c.card_type) →
        (push_call (run_request emptyCardState pre) c).1 = run_request emptyCardState pre ∧
        (push_call (run_request emptyCardState pre) c).2 =
          "⚠️ Card '" ++ c.title ++ "' was already pushed. Skipped duplicate.") := by
  intro pre c hpre hc
  have hmem : push_key c ∈ (run_request emptyCardState pre).tracker ↔
      ∃ p ∈ pre, p.title = c.title ∧ p.card_type = c.card_type := by
    rw [run_request_tracker_mem pre emptyCardState (push_key c)]
    have hempty : push_key c ∉ emptyCardState.tracker := by simp [emptyCardState]
    simp only [hempty, false_or]
    constructor
    · rintro ⟨p, hp, hkey⟩
      unfold push_key at hkey
      obtain ⟨ht, hty⟩ := joined_key_inj c.title c.card_type p.title p.card_type
        (colon_free_of_valid c.card_type hc) (colon_free_of_valid p.card_type (hpre p hp)) hkey
      exact ⟨p, hp, ht.symm, hty.symm⟩
    · rintro ⟨p, hp, ht, hty⟩
      refine ⟨p, hp, ?_⟩
      unfold push_key
      rw [ht, hty]
  refine ⟨?_, ?_⟩
  · intro hnone
    have hni : push_key c ∉ (run_request emptyCardState pre).tracker := by
      rw [hmem]
      rintro ⟨p, hp, ht, hty⟩
      exact hnone p hp ⟨ht, hty⟩
    exact push_call_fresh_valid (run_request emptyCardState pre) c hni hc
  · intro hsome
    exact push_call_dup (run_request emptyCardState pre) c (hmem.mpr hsome)

/-- Witness for C5: the spec's scenario — pushing `("X", "analysis")` twice
in one request: the first call broadcasts exactly once and the second call
changes nothing and reports the duplicate — from the dedup theorem at
concrete inputs. -/
theorem push_card_pair_dedup_per_request_witness :
    (push_call (run_request emptyCardState [])
        ⟨"X", "card content", "analysis", "", "", none⟩).1.broadcasts.length =
      (run_request emptyCardState []).broadcasts.length + 1 ∧
    (push_call (run_request emptyCardState [⟨"X", "card content", "analysis", "", "", none⟩])
        ⟨"X", "card content", "analysis", "", "", none⟩).1 =
      run_request emptyCardState [⟨"X", "card content", "analysis", "", "", none⟩] ∧
    (push_call (run_request emptyCardState [⟨"X", "card content", "analysis", "", "", none⟩])
        ⟨"X", "card content", "analysis", "", "", none⟩).2 =
      "⚠️ Card 'X' was already pushed. Skipped duplicate." := by
  have h1 := (push_card_pair_dedup_per_request []
      ⟨"X", "card content", "analysis", "", "", none⟩
      (by intro p hp; exact absurd hp (List.not_mem_nil p)) (by decide)).1
      (by intro p hp; exact absurd hp (List.not_mem_nil p))
  have h2 := (push_card_pair_dedup_per_request
      [⟨"X", "card content", "analysis", "", "", none⟩]
      ⟨"X", "card content", "analysis", "", "", none⟩
      (by intro p hp; rw [List.mem_singleton] at hp; rw [hp]; decide) (by decide)).2
      ⟨⟨"X", "card content", "analysis", "", "", none⟩, List.mem_singleton_self _, rfl, rfl⟩
  exact ⟨h1.1, h2.1, h2.2⟩

theorem broadcast_attempt_eq_filter (conns : List Nat) (sendOk : Nat → Bool) :
    broadcast_attempt conns sendOk =
      (conns.filter sendOk, conns.filter (fun c => !sendOk c)) := by
  induction conns with
  | nil => rfl
  | cons c rest ih =>
    unfold broadcast_attempt
    rw [ih]
    by_cases h : sendOk c <;> simp [h, List.filter_cons]

theorem discard_all_cons (a : Nat) (l disc : List Nat) (ha : a ∉ disc) :
    discard_all (a :: l) disc = a :: discard_all l disc := by
  induction disc generalizing l with
  | nil => rfl
  | cons d ds ih =>
    have had : ¬ a = d := fun h => ha (h ▸ List.mem_cons_self d ds)
    unfold discard_all
    rw [List.foldl_cons, List.foldl_cons, List.erase_cons_tail]
    · exact ih (l.erase d) (fun h => ha (List.mem_cons_of_mem d h))
    · simpa using had

theorem discard_all_filter (l : List Nat) (p : Nat → Bool) (h : l.Nodup) :
    discard_all l (l.filter p) = l.filter (fun c => !p c) := by
  induction l with
  | nil => rfl
  | cons a t ih =>
    rw [List.nodup_cons] at h
    by_cases hp : p a
    · rw [List.filter_cons_of_pos hp]
      unfold discard_all
      rw [List.foldl_cons, List.erase_cons_head]
      have := ih h.2
      unfold discard_all at this
      rw [this, List.filter_cons_of_neg (by simp [hp])]
    · rw [List.filter_cons_of_neg (by simp [hp])]
      have hnot : a ∉ t.filter p := fun hmem => h.1 (List.mem_of_mem_filter hmem)
      rw [discard_all_cons a t (t.filter p) hnot, ih h.2,
        List.filter_cons_of_pos (by simp [hp])]

/-- C6: `ConnectionManager.broadcast` attempts delivery to every currently
registered handle even when some sends fail: every handle either receives
the event or its send failed; the handles that succeed are exactly the
registered ones whose send succeeds (so one failure never aborts delivery
to later handles); and each failed handle — and only the failed ones — is
removed from the registry as a side effect.  The embedding being a total
function reflects that every failure is caught per connection, so
`broadcast` never raises to its caller. -/
theorem broadcast_partial_failure_isolation :
    ∀ (conns : List Nat) (sendOk : Nat → Bool), conns.Nodup →
      (∀ c ∈ conns, c ∈ (ConnectionManager.broadcast conns sendOk).delivered ∨ sendOk c = false) ∧
      (ConnectionManager.broadcast conns sendOk).delivered = conns.filter sendOk ∧
      (ConnectionManager.broadcast conns sendOk).remaining = conns.filter sendOk := by
  intro conns sendOk hnodup
  have hdel : (ConnectionManager.broadcast conns sendOk).delivered = conns.filter sendOk := by
    unfold ConnectionManager.broadcast
    rw [broadcast_attempt_eq_filter]
  have hrem : (ConnectionManager.broadcast conns sendOk).remaining = conns.filter sendOk := by
    unfold ConnectionManager.broadcast
    rw [broadcast_attempt_eq_filter]
    simp only
    rw [discard_all_filter conns (fun c => !sendOk c) hnodup]
    simp
  refine ⟨?_, hdel, hrem⟩
  intro c hc
  by_cases h : sendOk c
  · exact Or.inl (by rw [hdel]; exact List.mem_filter.mpr ⟨hc, h⟩)
  · exact Or.inr (by simpa using h)

/-- Witness for C6: the spec's scenario — three registered handles where
handle 2's send fails: 1 and 3 receive the event, handle 2 is pruned. -/
theorem broadcast_partial_failure_isolation_witness :
    (ConnectionManager.broadcast [1, 2, 3] (fun c => !(c == 2))).delivered = [1, 3] ∧
    (ConnectionManager.broadcast [1, 2, 3] (fun c => !(c == 2))).remaining = [1, 3] := by
  have h := broadcast_partial_failure_isolation [1, 2, 3] (fun c => !(c == 2)) (by decide)
  exact ⟨h.2.1.trans (by decide), h.2.2.trans (by decide)⟩

/-- Counterexample to C7: `broadcast` has no `return` statement, so it
returns `None` — not the count of handles delivered.  With one registered
handle and a succeeding send, one handle is delivered but the returned
value is not `1` (it is not `some n` for any count). -/
theorem broadcast_count_cex :
    (ConnectionManager.broadcast [7] (fun _ => true)).delivered.length = 1 ∧
    (ConnectionManager.broadcast [7] (fun _ => true)).retval ≠
      some (ConnectionManager.broadcast [7] (fun _ => true)).delivered.length := by
  decide

/-- C7 (amended): `broadcast` returns no value (`None` in the source); the
event is successfully delivered to exactly as many handles as registered
handles whose send succeeds, but that count is not returned to the caller. -/
theorem broadcast_returns_none_with_delivered_count :
    ∀ (conns : List Nat) (sendOk : Nat → Bool),
      (ConnectionManager.broadcast conns sendOk).retval = none ∧
      (ConnectionManager.broadcast conns sendOk).delivered.length =
        (conns.filter sendOk).length := by
  intro conns sendOk
  constructor
  · rfl
  · unfold ConnectionManager.broadcast
    rw [broadcast_attempt_eq_filter]

/-- C8: calling the orchestrator with an empty `video_id` returns the
clarifying-request answer with empty `tools_used` (and empty sources and
results) immediately, for EVERY environment of collaborators — the result
does not depend on `env` at all, so no collaborator is invoked and the
reasoning loop is never entered. -/
theorem answer_question_empty_video_id :
    ∀ (env : AgentEnv) (question : String) (playback_time : ℚ)
      (screenshot_base64 : Option String),
      answer_question env question "" playback_time screenshot_base64 =
        { answer := "I need a video to be loaded first. Please load a video and try again.",
          sources := [], tools_used := [], exa_results := [] } := by
  intro env question playback_time screenshot_base64
  rfl

/-- Counterexample to C1: the question matches athlete intent ("athlete"),
the candidate answer contains the stalling phrase "I'll pull up" from the
fixed list, and no search tool call occurred — yet the orchestrator returns
the stalling answer verbatim: no corrective search runs (`tools_used` and
`sources` stay empty) and the answer is not replaced by a templated
"check the cards" or clarifying response.  `answer_question` contains no
scan of the answer at all. -/
theorem stall_fallback_cex :
    (answer_question stall_env "Who is the athlete competing right now?" "vid123" 0 none).answer =
      "I'll pull up" ++ " information about that athlete." ∧
    forbidden_phrases.contains "I'll pull up" = true ∧
    (answer_question stall_env "Who is the athlete competing right now?" "vid123" 0 none).tools_used = [] ∧
    (answer_question stall_env "Who is the athlete competing right now?" "vid123" 0 none).sources = [] := by
  refine ⟨rfl, by decide, rfl, rfl⟩

/-- C1 (amended): the orchestrator performs no stalling-phrase
post-processing.  Whenever the reasoning loop finishes with a candidate
final answer, that answer is returned verbatim — regardless of stalling
phrases, athlete keywords, or the absence of a search call — and the
reported tools are exactly the deduplicated tool names of the loop's own
steps, with no orchestrator-initiated corrective search appended.
(Stalling is only discouraged through the prompt's FORBIDDEN PHRASES
instructions to the reasoning engine.) -/
theorem answer_question_run_ok (env : AgentEnv) (question vid : String) (t : ℚ)
    (ss : Option String) (m : VideoMetadata) (r : AgentRunResult)
    (hvid : vid ≠ "") (hmeta : env.stored_metadata vid = some m)
    (htools : env.setup_tools_fails = false)
    (hrun : ∀ inp, env.run_agent inp = .ok r) :
    answer_question env question vid t ss =
      { answer := r.output.getD "I couldn't generate an answer."
        sources := r.exa_cache.filterMap (fun x =>
          match x.source_url with
          | some u => some u
          | none => x.url)
        tools_used := r.steps.eraseDups
        exa_results := r.exa_cache } := by
  unfold answer_question
  rw [if_neg hvid, hmeta]
  show answer_question_go env question vid t ss m = _
  unfold answer_question_go
  rw [htools]
  simp only [Bool.false_eq_true, if_false, hrun]

theorem answer_returned_verbatim :
    ∀ (env : AgentEnv) (question vid : String) (t : ℚ) (ss : Option String)
      (m : VideoMetadata) (r : AgentRunResult) (s : String),
      vid ≠ "" →
      env.stored_metadata vid = some m →
      env.setup_tools_fails = false →
      (∀ inp, env.run_agent inp = .ok r) →
      r.output = some s →
      (answer_question env question vid t ss).answer = s ∧
      (answer_question env question vid t ss).tools_used = r.steps.eraseDups := by
  intro env question vid t ss m r s hvid hmeta htools hrun hout
  rw [answer_question_run_ok env question vid t ss m r hvid hmeta htools hrun]
  exact ⟨by rw [hout]; rfl, rfl⟩

/-- Witness for C1 (amended): the verbatim theorem applied to the concrete
stall environment, hypotheses discharged by computation. -/
theorem answer_returned_verbatim_witness :
    (answer_question stall_env "Who is the athlete competing right now?" "vid123" 0 none).answer =
      "I'll pull up" ++ " information about that athlete." :=
  (answer_returned_verbatim stall_env "Who is the athlete competing right now?" "vid123" 0 none
    ⟨"vid123", "Skeleton - Men Heats 1 and 2 | Sochi 2014", "Olympics", "", ""⟩
    { output := some ("I'll pull up" ++ " information about that athlete.")
      steps := [], exa_cache := [] }
    ("I'll pull up" ++ " information about that athlete.")
    (by decide) rfl rfl (fun _ => rfl) rfl).1

theorem agent_loop_length_le (engine : ReasoningEngine)
    (tools : String → String → String) :
    ∀ (fuel : Nat) (steps : List AgentToolStep),
      (agent_loop engine tools fuel steps).steps.length ≤ steps.length + fuel := by
  intro fuel
  induction fuel with
  | zero => intro steps; exact Nat.le_add_right _ _
  | succ f ih =>
    intro steps
    unfold agent_loop
    cases engine.plan steps with
    | finish answer =>
      show steps.length ≤ steps.length + (f + 1)
      omega
    | toolCall name input =>
      show (agent_loop engine tools f
          (steps ++ [{ name := name, input := input, output := tools name input }])).steps.length ≤
        steps.length + (f + 1)
      have h1 := ih (steps ++ [{ name := name, input := input, output := tools name input }])
      rw [List.length_append] at h1
      simp only [List.length_singleton] at h1
      omega

theorem agent_loop_exhaustion (engine : ReasoningEngine)
    (tools : String → String → String)
    (hplan : ∀ st, ∃ n i, engine.plan st = EngineStep.toolCall n i) :
    ∀ (fuel : Nat) (steps : List AgentToolStep),
      (agent_loop engine tools fuel steps).output =
        engine.forced_answer (agent_loop engine tools fuel steps).steps ∧
      (agent_loop engine tools fuel steps).steps.length = steps.length + fuel := by
  intro fuel
  induction fuel with
  | zero => intro steps; exact ⟨rfl, rfl⟩
  | succ f ih =>
    intro steps
    obtain ⟨n, i, hp⟩ := hplan steps
    unfold agent_loop
    rw [hp]
    show (agent_loop engine tools f
          (steps ++ [{ name := n, input := i, output := tools n i }])).output =
        engine.forced_answer (agent_loop engine tools f
          (steps ++ [{ name := n, input := i, output := tools n i }])).steps ∧
      (agent_loop engine tools f
          (steps ++ [{ name := n, input := i, output := tools n i }])).steps.length =
        steps.length + (f + 1)
    have h1 := ih (steps ++ [{ name := n, input := i, output := tools n i }])
    refine ⟨h1.1, ?_⟩
    rw [h1.2, List.length_append]
    simp only [List.length_singleton]
    omega

/-- C2: the reasoning loop performs at most 10 tool round-trips for every
engine and tool set; the orchestrator's answer is the loop's output; and
when the engine never emits a final answer (the loop-exhaustion scenario)
the loop runs exactly 10 iterations, the output is the engine's forced
generation over the accumulated steps, and — provided forced generation
produces text — the orchestrator still returns a non-empty `answer` field
(the embedding is total: no exception escapes). -/
theorem loop_bound_and_forced_generation :
    ∀ (engine : ReasoningEngine) (tools : String → String → String)
      (m : VideoMetadata) (question vid : String) (t : ℚ),
      (agent_executor_ainvoke engine tools).steps.length ≤ 10 ∧
      (vid ≠ "" →
        (answer_question (loop_env engine tools m) question vid t none).answer =
          (agent_executor_ainvoke engine tools).output) ∧
      ((∀ st, ∃ n i, engine.plan st = EngineStep.toolCall n i) →
        (agent_executor_ainvoke engine tools).output =
          engine.forced_answer (agent_executor_ainvoke engine tools).steps ∧
        (agent_executor_ainvoke engine tools).steps.length = 10) ∧
      (vid ≠ "" → (∀ st, engine.forced_answer st ≠ "") →
        (∀ st, ∃ n i, engine.plan st = EngineStep.toolCall n i) →
        (answer_question (loop_env engine tools m) question vid t none).answer ≠ "") := by
  intro engine tools m question vid t
  have hansw : vid ≠ "" →
      (answer_question (loop_env engine tools m) question vid t none).answer =
        (agent_executor_ainvoke engine tools).output := by
    intro hvid
    rw [answer_question_run_ok (loop_env engine tools m) question vid t none m
      { output := some (agent_executor_ainvoke engine tools).output
        steps := (agent_executor_ainvoke engine tools).steps.map (fun st => st.name)
        exa_cache := [] }
      hvid rfl rfl (fun _ => rfl)]
    rfl
  refine ⟨?_, hansw, ?_, ?_⟩
  · have h := agent_loop_length_le engine tools 10 []
    simpa [agent_executor_ainvoke] using h
  · intro hplan
    have h := agent_loop_exhaustion engine tools hplan 10 []
    unfold agent_executor_ainvoke
    exact ⟨h.1, by rw [h.2]; rfl⟩
  · intro hvid hforce hplan
    rw [hansw hvid]
    have h := agent_loop_exhaustion engine tools hplan 10 []
    unfold agent_executor_ainvoke
    rw [h.1]
    exact hforce _

/-- Witness for C2: the loop theorem at the always-tool-calling stub — the
orchestrator still returns a non-empty answer and the bound holds. -/
theorem loop_bound_and_forced_generation_witness :
    (agent_executor_ainvoke exhausting_engine (fun _ _ => "observation")).steps.length ≤ 10 ∧
    (answer_question
        (loop_env exhausting_engine (fun _ _ => "observation")
          ⟨"v1", "Skeleton Heats", "Olympics", "", ""⟩)
        "Who is competing?" "v1" 0 none).answer ≠ "" := by
  have h := loop_bound_and_forced_generation exhausting_engine (fun _ _ => "observation")
    ⟨"v1", "Skeleton Heats", "Olympics", "", ""⟩ "Who is competing?" "v1" 0
  refine ⟨h.1, h.2.2.2 (by decide) ?_ (fun st => ⟨"search_exa", "athlete profile", rfl⟩)⟩
  intro st
  show ("Based on what I found so far, here is my best answer." : String) ≠ ""
  decide

/-- C9: after any `start_live_agent` call, at most one monitor task is
active in the whole process — in particular at most one per video, since the
global slot holds a single task; the new task occupies the slot and monitors
the requested video; and any previously active instance for that video is
cancelled (its id is recorded among the cancelled ids, so it is no longer
active) and replaced by the new task. -/
theorem live_monitor_single_instance :
    ∀ (s : LiveAgentState) (v : String),
      (∀ t1 t2, isActiveTask (start_live_agent s v).1 t1 →
        isActiveTask (start_live_agent s v).1 t2 → t1 = t2) ∧
      (start_live_agent s v).1.current = some (start_live_agent s v).2 ∧
      ((start_live_agent s v).2).videoId = v ∧
      (∀ t, isActiveTask s t → t.videoId = v →
        t.tid ∈ (start_live_agent s v).1.cancelledTids ∧
        ¬ isActiveTask (start_live_agent s v).1 t) := by
  intro s v
  refine ⟨?_, rfl, rfl, ?_⟩
  · intro t1 t2 h1 h2
    have e1 : some t1 = some (start_live_agent s v).2 := by
      rw [← h1.1]; rfl
    have e2 : some t2 = some (start_live_agent s v).2 := by
      rw [← h2.1]; rfl
    rw [Option.some_inj] at e1 e2
    rw [e1, e2]
  · intro t hact hv
    have hdone : task_done s t = false := by
      simp [task_done, hact.2.1, hact.2.2]
    have hc : (start_live_agent s v).1.cancelledTids = s.cancelledTids ++ [t.tid] := by
      unfold start_live_agent
      rw [hact.1]
      simp [hdone]
    have hmem : t.tid ∈ (start_live_agent s v).1.cancelledTids := by
      rw [hc]
      exact List.mem_append_right _ (List.mem_singleton_self _)
    exact ⟨hmem, fun habs => habs.2.2 hmem⟩

/-- Witness for C9: a state whose global slot holds an active monitor for
video "v"; starting a new monitor for "v" cancels it and installs the new
task, via the single-instance theorem at concrete inputs. -/
theorem live_monitor_single_instance_witness :
    (0 : Nat) ∈ (start_live_agent ⟨some ⟨0, "v"⟩, [], [], 1⟩ "v").1.cancelledTids ∧
    ¬ isActiveTask (start_live_agent ⟨some ⟨0, "v"⟩, [], [], 1⟩ "v").1 ⟨0, "v"⟩ ∧
    (start_live_agent ⟨some ⟨0, "v"⟩, [], [], 1⟩ "v").1.current =
      some (start_live_agent ⟨some ⟨0, "v"⟩, [], [], 1⟩ "v").2 := by
  have h := live_monitor_single_instance ⟨some ⟨0, "v"⟩, [], [], 1⟩ "v"
  have hact : isActiveTask ⟨some ⟨0, "v"⟩, [], [], 1⟩ ⟨0, "v"⟩ :=
    ⟨rfl, by simp, by simp⟩
  exact ⟨(h.2.2.2 ⟨0, "v"⟩ hact rfl).1, (h.2.2.2 ⟨0, "v"⟩ hact rfl).2, h.2.1⟩

/-- C10: `AgentService` defines no method named `research_video_context`
(the class only defines `proactive_video_research`), so the background
research task always raises on its first call and takes its exception
branch: whatever the success path would have produced, the run broadcasts
no card and stores no per-video research context. -/
theorem research_background_always_takes_exception_branch :
    ∀ (onSuccess : ResearchBackgroundOutcome),
      research_video_context_background onSuccess = research_failed_outcome ∧
      (research_video_context_background onSuccess).broadcasts = [] ∧
      (research_video_context_background onSuccess).stored_context = none := by
  intro onSuccess
  have h : research_video_context_background onSuccess = research_failed_outcome := by
    unfold research_video_context_background
    rfl
  exact ⟨h, by rw [h]; rfl, by rw [h]; rfl⟩
